import Mathlib

/-!
Verification of the QCompress quantum-autoencoder landscape-scan engine.

Circuits are embedded as explicit gate lists.  The circuit builders, the
qubit-labeling step and the landscape-scan loop follow
`docs/run_landscape_scan.ipynb`; the engine pieces that live in
`qcompress.qae_engine` and `qcompress.utils` are modelled from the
specification where noted in their doc comments.  Rotation angles and losses
are embedded as rationals so that every definition is executable.
-/

/-- A gate of the demo circuits: a parametrized Y rotation or a CNOT. -/
inductive Gate where
  | RY (angle : ℚ) (q : ℕ)
  | CNOT (control target : ℕ)
  deriving DecidableEq

/-- The inverse of a single gate: an RY negates its angle, a CNOT is self-inverse. -/
def invGate : Gate → Gate
  | Gate.RY a q => Gate.RY (-a) q
  | Gate.CNOT c t => Gate.CNOT c t

/-- State-preparation circuit from the notebook:
`RY(phi[0], qubit_indices[1])` then `CNOT(qubit_indices[1], qubit_indices[0])`. -/
def _state_prep_circuit (phi : List ℚ) (qubit_indices : List ℕ) : List Gate :=
  [Gate.RY (phi.getD 0 0) (qubit_indices.getD 1 0),
   Gate.CNOT (qubit_indices.getD 1 0) (qubit_indices.getD 0 0)]

/-- Daggered state-preparation circuit from the notebook:
`CNOT(qubit_indices[1], qubit_indices[0])` then `RY(-phi[0], qubit_indices[1])`. -/
def _state_prep_circuit_dag (phi : List ℚ) (qubit_indices : List ℕ) : List Gate :=
  [Gate.CNOT (qubit_indices.getD 1 0) (qubit_indices.getD 0 0),
   Gate.RY (-(phi.getD 0 0)) (qubit_indices.getD 1 0)]

/-- Training circuit from the notebook:
`RY(-theta[0]/2, qubit_indices[0])` then `CNOT(qubit_indices[1], qubit_indices[0])`. -/
def _training_circuit (theta : List ℚ) (qubit_indices : List ℕ) : List Gate :=
  [Gate.RY (-(theta.getD 0 0) / 2) (qubit_indices.getD 0 0),
   Gate.CNOT (qubit_indices.getD 1 0) (qubit_indices.getD 0 0)]

/-- Daggered training circuit from the notebook:
`CNOT(qubit_indices[1], qubit_indices[0])` then `RY(theta[0]/2, qubit_indices[0])`. -/
def _training_circuit_dag (theta : List ℚ) (qubit_indices : List ℕ) : List Gate :=
  [Gate.CNOT (qubit_indices.getD 1 0) (qubit_indices.getD 0 0),
   Gate.RY (theta.getD 0 0 / 2) (qubit_indices.getD 0 0)]

/-- One cancellation move at the gate-sequence level: an adjacent pair consisting of a
gate and its inverse is removed from the sequence. -/
def cancelStep (l1 l2 : List Gate) : Prop :=
  ∃ xs ys g, l1 = xs ++ g :: invGate g :: ys ∧ l2 = xs ++ ys

/-- Lexicographic comparison of two lists of characters, by character code. -/
def lexLe : List Char → List Char → Bool
  | [], _ => true
  | _ :: _, [] => false
  | a :: as, b :: bs =>
    if a.toNat < b.toNat then true
    else if b.toNat < a.toNat then false
    else lexLe as bs

/-- Lexicographic comparison of abstract qubit labels. -/
def labelLe (a b : String) : Bool := lexLe a.data b.data

/-- Modelled from the spec: `order_qubit_labels` lives in `qcompress.utils`, which is not
under src.  Per §4.1 of the spec it sorts the abstract labels lexicographically and then
extracts the physical indices in that label order. -/
def order_qubit_labels (m : List (String × ℕ)) : List ℕ :=
  (m.insertionSort (fun a b => labelLe a.1 b.1 = true)).map Prod.snd

/-- Modelled from the spec: `merge_two_dicts` lives in `qcompress.utils`, which is not
under src.  It merges the latent and refresh label-to-index mappings; on a label collision
the second mapping's entry wins, as with a Python dict update. -/
def merge_two_dicts (x y : List (String × ℕ)) : List (String × ℕ) :=
  x.filter (fun p => decide (p.1 ∉ y.map Prod.fst)) ++ y

/-- Qubit-labeling step of the notebook: `compression_indices = order_qubit_labels(q_in)`. -/
def compression_indices (q_in : List (String × ℕ)) : List ℕ :=
  order_qubit_labels q_in

/-- Natural (ascending-label) ordering of the merged latent/refresh mapping, as produced
by `recovery_indices = order_qubit_labels(merge_two_dicts(q_latent, q_refresh))` in the
notebook before the conditional reversal. -/
def recovery_order (q_latent q_refresh : List (String × ℕ)) : List ℕ :=
  order_qubit_labels (merge_two_dicts q_latent q_refresh)

/-- Recovery indices actually used by the notebook: the natural ordering, reversed when
`reset` is false (`if not reset: recovery_indices = recovery_indices[::-1]`). -/
def recovery_indices (reset : Bool) (q_latent q_refresh : List (String × ℕ)) : List ℕ :=
  if reset then recovery_order q_latent q_refresh
  else (recovery_order q_latent q_refresh).reverse

/-- Demo input-qubit mapping from the notebook. -/
def q_in_demo : List (String × ℕ) := [("q0", 0), ("q1", 1)]

/-- Demo latent-qubit mapping from the notebook. -/
def q_latent_demo : List (String × ℕ) := [("q1", 1)]

/-- Demo refresh-qubit mapping from the notebook. -/
def q_refresh_demo : List (String × ℕ) := [("q2", 2)]

/-- Modelled from the spec: the per-sample loss of `compute_loss_function` in
`qcompress.qae_engine`, which is not under src.  Per §4.3 it is minus the empirical
probability `target_count / n_shots`, and it is 0 when `n_shots` is 0 or the target
outcome never appears. -/
def sample_loss (target_count n_shots : ℕ) : ℚ :=
  if n_shots = 0 ∨ target_count = 0 then 0
  else -((target_count : ℚ) / (n_shots : ℚ))

/-- Modelled from the spec: the batch aggregation of `compute_loss_function`, the
arithmetic mean of the per-sample losses over the training split. -/
def mean_loss (losses : List ℚ) : ℚ := losses.sum / (losses.length : ℚ)

/-- Landscape-scan loop of the notebook: for each candidate angle, in input order, wrap it
as a one-entry parameter vector and record it together with the mean training loss
evaluated there; no optimizer is involved. -/
def theta_scan_losses (loss : List ℚ → ℚ) (theta_scan : List ℚ) : List (List ℚ × ℚ) :=
  theta_scan.map (fun angle => ([angle], loss [angle]))

/-- Modelled from the spec: the optimization-mode entry of `quantum_autoencoder.train` in
`qcompress.qae_engine`, which is not under src.  Per §4.4 a parameter vector whose length
mismatches the ansatz's expected parameter count is a fatal configuration error raised
before any backend call.  The second component counts the backend execution calls issued:
one per training sample when the run proceeds, zero when the configuration error fires. -/
def optimization_mode (expected_params : ℕ) (params : List ℚ)
    (training_sample_losses : List ℚ) : Except String ℚ × ℕ :=
  if params.length ≠ expected_params then
    (Except.error ("ConfigurationError: parameter vector length mismatch"), 0)
  else
    (Except.ok (mean_loss training_sample_losses), training_sample_losses.length)

/-- Sorting by label is a permutation, so the extracted index sequence is a permutation of
the mapping's index values. -/
lemma order_qubit_labels_perm (m : List (String × ℕ)) :
    List.Perm (order_qubit_labels m) (m.map Prod.snd) :=
  (List.perm_insertionSort _ m).map Prod.snd

/-- The index values of a merged mapping form a sublist of the two mappings' index values
concatenated. -/
lemma merge_values_sublist (x y : List (String × ℕ)) :
    List.Sublist ((merge_two_dicts x y).map Prod.snd)
      (x.map Prod.snd ++ y.map Prod.snd) := by
  rw [merge_two_dicts, List.map_append]
  exact ((List.filter_sublist x).map Prod.snd).append (List.Sublist.refl _)

/-- With unique indices per role and disjoint latent/refresh indices, the merged mapping's
index values contain no duplicates. -/
lemma merge_values_nodup (x y : List (String × ℕ))
    (hx : (x.map Prod.snd).Nodup) (hy : (y.map Prod.snd).Nodup)
    (hxy : (x.map Prod.snd).Disjoint (y.map Prod.snd)) :
    ((merge_two_dicts x y).map Prod.snd).Nodup := by
  have hnd : (x.map Prod.snd ++ y.map Prod.snd).Nodup :=
    List.nodup_append.mpr ⟨hx, hy, hxy⟩
  exact hnd.sublist (merge_values_sublist x y)

/-- The recovery index sequence, reversed or not, is contained in the latent and refresh
index values. -/
lemma recovery_indices_subset (reset : Bool) (q_latent q_refresh : List (String × ℕ)) :
    recovery_indices reset q_latent q_refresh ⊆
      q_latent.map Prod.snd ++ q_refresh.map Prod.snd := by
  have hsub : recovery_order q_latent q_refresh ⊆
      q_latent.map Prod.snd ++ q_refresh.map Prod.snd :=
    fun a ha =>
      (merge_values_sublist q_latent q_refresh).subset
        ((order_qubit_labels_perm (merge_two_dicts q_latent q_refresh)).subset ha)
  cases reset with
  | false =>
    intro a ha
    exact hsub ((List.reverse_perm (recovery_order q_latent q_refresh)).subset ha)
  | true => exact hsub

/-- C2: with `reset = false` the recovery index sequence used is the reversal of the
ascending-label ordering of the merged latent+refresh mapping; with `reset = true` it is
used unreversed; on the demo mapping (q1 -> 1, q2 -> 2) the sequence used is [2, 1]. -/
theorem recovery_indices_reset_reversal (q_latent q_refresh : List (String × ℕ)) :
    recovery_indices false q_latent q_refresh
        = (recovery_order q_latent q_refresh).reverse ∧
    recovery_indices true q_latent q_refresh = recovery_order q_latent q_refresh ∧
    recovery_indices false q_latent_demo q_refresh_demo = [2, 1] :=
  ⟨rfl, rfl, by decide⟩

/-- C4: each daggered builder returns exactly the forward builder's gate sequence in
reverse order with every rotation angle negated. -/
theorem dagger_reverses_and_negates (phi theta : List ℚ) (qubit_indices : List ℕ) :
    _state_prep_circuit_dag phi qubit_indices
        = ((_state_prep_circuit phi qubit_indices).map invGate).reverse ∧
    _training_circuit_dag theta qubit_indices
        = ((_training_circuit theta qubit_indices).map invGate).reverse := by
  constructor
  · simp [_state_prep_circuit, _state_prep_circuit_dag, invGate]
  · simp [_training_circuit, _training_circuit_dag, invGate]
    ring

/-- C5: with a positive shot count and a target count bounded by the shot count, the
per-sample loss is exactly minus the empirical probability, hence lies in [-1, 0]. -/
theorem sample_loss_is_neg_empirical_probability (target_count n_shots : ℕ)
    (hpos : 0 < n_shots) (hle : target_count ≤ n_shots) :
    sample_loss target_count n_shots = -((target_count : ℚ) / (n_shots : ℚ)) ∧
    -1 ≤ sample_loss target_count n_shots ∧ sample_loss target_count n_shots ≤ 0 := by
  have hn : (0 : ℚ) < (n_shots : ℚ) := by exact_mod_cast hpos
  have heq : sample_loss target_count n_shots = -((target_count : ℚ) / (n_shots : ℚ)) := by
    rcases Nat.eq_zero_or_pos target_count with h0 | htpos
    · subst h0; simp [sample_loss]
    · rw [sample_loss, if_neg]
      push_neg
      exact ⟨Nat.pos_iff_ne_zero.mp hpos, Nat.pos_iff_ne_zero.mp htpos⟩
  have hfrac0 : (0 : ℚ) ≤ (target_count : ℚ) / (n_shots : ℚ) :=
    div_nonneg (by exact_mod_cast Nat.zero_le target_count) (le_of_lt hn)
  have hfrac1 : (target_count : ℚ) / (n_shots : ℚ) ≤ 1 := by
    rw [div_le_one hn]
    exact_mod_cast hle
  refine ⟨heq, ?_, ?_⟩
  · rw [heq]; linarith
  · rw [heq]; linarith

/-- Witness for C5 at target_count = 3, n_shots = 4. -/
theorem sample_loss_is_neg_empirical_probability_witness :
    0 < 4 ∧ 3 ≤ 4 ∧
    (sample_loss 3 4 = -(((3 : ℕ) : ℚ) / ((4 : ℕ) : ℚ)) ∧
     -1 ≤ sample_loss 3 4 ∧ sample_loss 3 4 ≤ 0) :=
  ⟨by decide, by decide,
   sample_loss_is_neg_empirical_probability 3 4 (by decide) (by decide)⟩

/-- C6: with a zero shot count or a target outcome that never appears, the loss estimator
returns exactly 0. -/
theorem sample_loss_degenerate_returns_zero (target_count n_shots : ℕ)
    (h : n_shots = 0 ∨ target_count = 0) :
    sample_loss target_count n_shots = 0 := by
  rw [sample_loss, if_pos h]

/-- Witness for C6 at target_count = 7, n_shots = 0. -/
theorem sample_loss_degenerate_returns_zero_witness :
    ((0 : ℕ) = 0 ∨ (7 : ℕ) = 0) ∧ sample_loss 7 0 = 0 :=
  ⟨Or.inl rfl, sample_loss_degenerate_returns_zero 7 0 (Or.inl rfl)⟩

/-- C7: a parameter vector whose length mismatches the expected parameter count makes
optimization mode return a configuration error with zero backend calls recorded. -/
theorem optimization_mode_rejects_bad_param_length (expected_params : ℕ)
    (params : List ℚ) (training_sample_losses : List ℚ)
    (h : params.length ≠ expected_params) :
    (optimization_mode expected_params params training_sample_losses).1
        = Except.error ("ConfigurationError: parameter vector length mismatch") ∧
    (optimization_mode expected_params params training_sample_losses).2 = 0 := by
  rw [optimization_mode, if_pos h]
  exact ⟨rfl, rfl⟩

/-- Witness for C7: a two-entry parameter vector against a one-parameter ansatz. -/
theorem optimization_mode_rejects_bad_param_length_witness :
    ([0, 0] : List ℚ).length ≠ 1 ∧
    ((optimization_mode 1 [0, 0] []).1
        = Except.error ("ConfigurationError: parameter vector length mismatch") ∧
     (optimization_mode 1 [0, 0] []).2 = 0) :=
  ⟨by decide, optimization_mode_rejects_bad_param_length 1 [0, 0] [] (by decide)⟩

/-- C1: for role-disjoint qubit mappings the labeling step produces compression and
recovery index sequences with no duplicate physical index across the two combined, and
repeated calls on the same fixed input mapping return the same sequences. -/
theorem qubit_labeling_nodup_and_deterministic
    (q_in q_latent q_refresh : List (String × ℕ)) (reset : Bool)
    (h_in : (q_in.map Prod.snd).Nodup)
    (h_lat : (q_latent.map Prod.snd).Nodup)
    (h_ref : (q_refresh.map Prod.snd).Nodup)
    (h_lr : (q_latent.map Prod.snd).Disjoint (q_refresh.map Prod.snd))
    (h_cross : (q_in.map Prod.snd).Disjoint
        (q_latent.map Prod.snd ++ q_refresh.map Prod.snd)) :
    (compression_indices q_in ++ recovery_indices reset q_latent q_refresh).Nodup ∧
    compression_indices q_in = compression_indices q_in ∧
    recovery_indices reset q_latent q_refresh
        = recovery_indices reset q_latent q_refresh := by
  refine ⟨?_, rfl, rfl⟩
  have hcp : List.Perm (compression_indices q_in) (q_in.map Prod.snd) :=
    order_qubit_labels_perm q_in
  have hro : List.Perm (recovery_order q_latent q_refresh)
      ((merge_two_dicts q_latent q_refresh).map Prod.snd) :=
    order_qubit_labels_perm (merge_two_dicts q_latent q_refresh)
  have h1 : (compression_indices q_in).Nodup := hcp.nodup_iff.mpr h_in
  have h2 : (recovery_order q_latent q_refresh).Nodup :=
    hro.nodup_iff.mpr (merge_values_nodup q_latent q_refresh h_lat h_ref h_lr)
  have h2' : (recovery_indices reset q_latent q_refresh).Nodup := by
    cases reset with
    | false => exact List.nodup_reverse.mpr h2
    | true => exact h2
  have hdisj : (compression_indices q_in).Disjoint
      (recovery_indices reset q_latent q_refresh) := fun a ha hb =>
    h_cross (hcp.subset ha) (recovery_indices_subset reset q_latent q_refresh hb)
  exact List.nodup_append.mpr ⟨h1, h2', hdisj⟩

/-- Witness for C1 on a role-disjoint mapping with one qubit per role. -/
theorem qubit_labeling_nodup_and_deterministic_witness :
    (compression_indices [("q0", 0)]
        ++ recovery_indices false [("q1", 1)] [("q2", 2)]).Nodup ∧
    compression_indices [("q0", 0)] = compression_indices [("q0", 0)] ∧
    recovery_indices false [("q1", 1)] [("q2", 2)]
        = recovery_indices false [("q1", 1)] [("q2", 2)] :=
  qubit_labeling_nodup_and_deterministic [("q0", 0)] [("q1", 1)] [("q2", 2)] false
    (by decide) (by decide) (by decide) (by simp [List.Disjoint])
    (by simp [List.Disjoint])

/-- The reference single-parameter gate pattern RY(-t/2), CNOT, CNOT, RY(t/2) cancels to
the empty sequence in two moves. -/
lemma cancel_fwd_steps (t : ℚ) (a b : ℕ) :
    Relation.ReflTransGen cancelStep
      [Gate.RY (-t / 2) a, Gate.CNOT b a, Gate.CNOT b a, Gate.RY (t / 2) a] [] := by
  have s1 : cancelStep
      [Gate.RY (-t / 2) a, Gate.CNOT b a, Gate.CNOT b a, Gate.RY (t / 2) a]
      [Gate.RY (-t / 2) a, Gate.RY (t / 2) a] :=
    ⟨[Gate.RY (-t / 2) a], [Gate.RY (t / 2) a], Gate.CNOT b a, rfl, rfl⟩
  have s2 : cancelStep [Gate.RY (-t / 2) a, Gate.RY (t / 2) a] [] := by
    refine ⟨[], [], Gate.RY (-t / 2) a, ?_, rfl⟩
    simp [invGate]
    ring
  exact (Relation.ReflTransGen.single s1).trans (Relation.ReflTransGen.single s2)

/-- The reversed composition CNOT, RY(t/2), RY(-t/2), CNOT also cancels to the empty
sequence in two moves. -/
lemma cancel_rev_steps (t : ℚ) (a b : ℕ) :
    Relation.ReflTransGen cancelStep
      [Gate.CNOT b a, Gate.RY (t / 2) a, Gate.RY (-t / 2) a, Gate.CNOT b a] [] := by
  have s1 : cancelStep
      [Gate.CNOT b a, Gate.RY (t / 2) a, Gate.RY (-t / 2) a, Gate.CNOT b a]
      [Gate.CNOT b a, Gate.CNOT b a] := by
    refine ⟨[Gate.CNOT b a], [Gate.CNOT b a], Gate.RY (t / 2) a, ?_, rfl⟩
    simp [invGate]
    ring
  have s2 : cancelStep [Gate.CNOT b a, Gate.CNOT b a] [] :=
    ⟨[], [], Gate.CNOT b a, rfl, rfl⟩
  exact (Relation.ReflTransGen.single s1).trans (Relation.ReflTransGen.single s2)

/-- C3: the training circuit concatenated with its dagger (in either order) on the same
qubit ordering cancels to the empty circuit by pairwise removal of adjacent CNOTs and
opposite-angle RYs. -/
theorem training_circuit_dag_cancellation (theta : List ℚ) (qubit_indices : List ℕ)
    (h : 2 ≤ qubit_indices.length) :
    Relation.ReflTransGen cancelStep
      (_training_circuit theta qubit_indices ++ _training_circuit_dag theta qubit_indices)
      [] ∧
    Relation.ReflTransGen cancelStep
      (_training_circuit_dag theta qubit_indices ++ _training_circuit theta qubit_indices)
      [] :=
  ⟨cancel_fwd_steps (theta.getD 0 0) (qubit_indices.getD 0 0) (qubit_indices.getD 1 0),
   cancel_rev_steps (theta.getD 0 0) (qubit_indices.getD 0 0) (qubit_indices.getD 1 0)⟩

/-- Witness for C3 at theta = [1] on qubit indices [0, 1]. -/
theorem training_circuit_dag_cancellation_witness :
    2 ≤ ([0, 1] : List ℕ).length ∧
    (Relation.ReflTransGen cancelStep
        (_training_circuit [1] [0, 1] ++ _training_circuit_dag [1] [0, 1]) [] ∧
     Relation.ReflTransGen cancelStep
        (_training_circuit_dag [1] [0, 1] ++ _training_circuit [1] [0, 1]) []) :=
  ⟨by decide, training_circuit_dag_cancellation [1] [0, 1] (by decide)⟩

/-- C8: the landscape scan returns one (parameters, loss) pair per candidate, in input
order: the output has the input's length and its i-th entry pairs the i-th candidate with
the loss evaluated at that candidate. -/
theorem theta_scan_preserves_input_order (loss : List ℚ → ℚ) (theta_scan : List ℚ)
    (i : ℕ) (hi : i < theta_scan.length) :
    (theta_scan_losses loss theta_scan).length = theta_scan.length ∧
    (theta_scan_losses loss theta_scan).getD i ([], 0)
        = ([theta_scan.getD i 0], loss [theta_scan.getD i 0]) := by
  constructor
  · simp [theta_scan_losses]
  · simp [theta_scan_losses, List.getD, List.getElem?_map, List.getElem?_eq_getElem, hi]

/-- Witness for C8 at the candidate list [1, 2] with the mean-loss aggregator, i = 1. -/
theorem theta_scan_preserves_input_order_witness :
    1 < ([1, 2] : List ℚ).length ∧
    ((theta_scan_losses mean_loss [1, 2]).length = ([1, 2] : List ℚ).length ∧
     (theta_scan_losses mean_loss [1, 2]).getD 1 ([], 0)
        = ([([1, 2] : List ℚ).getD 1 0], mean_loss [([1, 2] : List ℚ).getD 1 0])) :=
  ⟨by decide, theta_scan_preserves_input_order mean_loss [1, 2] 1 (by decide)⟩

/-- C9: the four circuit builders are deterministic: equal parameter and index inputs
yield equal gate sequences (and, being pure functions into immutable lists, they mutate
nothing and execute nothing). -/
theorem circuit_builders_deterministic (phi1 phi2 theta1 theta2 : List ℚ)
    (qs1 qs2 : List ℕ) (hp : phi1 = phi2) (ht : theta1 = theta2) (hq : qs1 = qs2) :
    _state_prep_circuit phi1 qs1 = _state_prep_circuit phi2 qs2 ∧
    _state_prep_circuit_dag phi1 qs1 = _state_prep_circuit_dag phi2 qs2 ∧
    _training_circuit theta1 qs1 = _training_circuit theta2 qs2 ∧
    _training_circuit_dag theta1 qs1 = _training_circuit_dag theta2 qs2 := by
  subst hp
  subst ht
  subst hq
  exact ⟨rfl, rfl, rfl, rfl⟩

/-- Witness for C9 at concrete equal inputs. -/
theorem circuit_builders_deterministic_witness :
    ([0] : List ℚ) = [0] ∧
    (_state_prep_circuit [0] [0, 1] = _state_prep_circuit [0] [0, 1] ∧
     _state_prep_circuit_dag [0] [0, 1] = _state_prep_circuit_dag [0] [0, 1] ∧
     _training_circuit [0] [0, 1] = _training_circuit [0] [0, 1] ∧
     _training_circuit_dag [0] [0, 1] = _training_circuit_dag [0] [0, 1]) :=
  ⟨rfl, circuit_builders_deterministic [0] [0] [0] [0] [0, 1] [0, 1] rfl rfl rfl⟩

/-- C10: the reversal applied when reset is false is a pure permutation: the multiset of
indices is unchanged (each merged index occurs exactly once before and after), and
reversing twice restores the original sequence. -/
theorem recovery_reversal_permutation (q_latent q_refresh : List (String × ℕ))
    (h_lat : (q_latent.map Prod.snd).Nodup)
    (h_ref : (q_refresh.map Prod.snd).Nodup)
    (h_lr : (q_latent.map Prod.snd).Disjoint (q_refresh.map Prod.snd)) :
    List.Perm (recovery_order q_latent q_refresh).reverse
        (recovery_order q_latent q_refresh) ∧
    (∀ x, (recovery_order q_latent q_refresh).reverse.count x
        = (recovery_order q_latent q_refresh).count x) ∧
    (recovery_order q_latent q_refresh).reverse.reverse
        = recovery_order q_latent q_refresh ∧
    recovery_indices false q_latent q_refresh
        = (recovery_order q_latent q_refresh).reverse ∧
    ∀ x ∈ (merge_two_dicts q_latent q_refresh).map Prod.snd,
      (recovery_order q_latent q_refresh).count x = 1 ∧
      (recovery_order q_latent q_refresh).reverse.count x = 1 := by
  have hperm := order_qubit_labels_perm (merge_two_dicts q_latent q_refresh)
  have hnd : (recovery_order q_latent q_refresh).Nodup :=
    hperm.nodup_iff.mpr (merge_values_nodup q_latent q_refresh h_lat h_ref h_lr)
  refine ⟨List.reverse_perm _, fun x => List.count_reverse x _,
    List.reverse_reverse _, rfl, fun x hx => ?_⟩
  have hmem : x ∈ recovery_order q_latent q_refresh := hperm.symm.subset hx
  refine ⟨List.count_eq_one_of_mem hnd hmem, ?_⟩
  rw [List.count_reverse]
  exact List.count_eq_one_of_mem hnd hmem

/-- Witness for C10 on the demo latent/refresh mapping. -/
theorem recovery_reversal_permutation_witness :
    List.Perm (recovery_order q_latent_demo q_refresh_demo).reverse
        (recovery_order q_latent_demo q_refresh_demo) ∧
    (∀ x, (recovery_order q_latent_demo q_refresh_demo).reverse.count x
        = (recovery_order q_latent_demo q_refresh_demo).count x) ∧
    (recovery_order q_latent_demo q_refresh_demo).reverse.reverse
        = recovery_order q_latent_demo q_refresh_demo ∧
    recovery_indices false q_latent_demo q_refresh_demo
        = (recovery_order q_latent_demo q_refresh_demo).reverse ∧
    ∀ x ∈ (merge_two_dicts q_latent_demo q_refresh_demo).map Prod.snd,
      (recovery_order q_latent_demo q_refresh_demo).count x = 1 ∧
      (recovery_order q_latent_demo q_refresh_demo).reverse.count x = 1 :=
  recovery_reversal_permutation q_latent_demo q_refresh_demo
    (by decide) (by decide) (by simp [q_latent_demo, q_refresh_demo, List.Disjoint])
